import Mathlib

set_option autoImplicit false

/-!
Verification model of the `excel_word_templater` program
(`src/excel_word_templater/main.py`).  The Python code is shallowly
embedded: spreadsheet cells are `Option String` (a `none` cell is a null
cell), Python dictionaries are association lists built with
insertion-order semantics, the file system is a finite list of existing
path strings, and the two external effects of a row (the docx engine's
render and the final file save) are supplied as boolean outcomes.
-/

namespace ExcelWordTemplater

/-- A spreadsheet cell as delivered by `openpyxl` with `values_only=True`:
either a null cell (`none`) or a text value. -/
abbrev Cell := Option String

/-- A Python `dict[str, str]`-like row mapping: an association list whose
keys are the raw header cells.  Keys are unique; insertion keeps the first
position of a key and replaces its value, mirroring CPython dicts. -/
abbrev Row := List (Cell × String)

/-- Keys of a row dictionary, in insertion order. -/
def dictKeys (row : Row) : List Cell :=
  row.map Prod.fst

/-- Lookup in a row dictionary (Python `row[k]` / `k in row`). -/
def dictGet : Row → Cell → Option String
  | [], _ => none
  | kv :: rest, k => if kv.1 = k then some kv.2 else dictGet rest k

/-- Python dict assignment `d[k] = v`: replaces the value in place if the
key is present, otherwise appends the binding at the end. -/
def dictInsert : Row → Cell → String → Row
  | [], k, v => [(k, v)]
  | kv :: rest, k, v =>
    if kv.1 = k then (k, v) :: rest else kv :: dictInsert rest k v

/-- Python `col in row` for a string column name: membership of the key
`some col` in the row dictionary. -/
def hasKey (row : Row) (col : String) : Prop :=
  some col ∈ dictKeys row

instance (row : Row) (col : String) : Decidable (hasKey row col) := by
  unfold hasKey; infer_instance

/-- The dict comprehension of `read_excel` (main.py line 111):
`{k: (v if v is not None else "") for k, v in zip(headers, row)}`.
Successive insertion of the zipped pairs, null cell values becoming the
empty string. -/
def rowDict (headers cells : List Cell) : Row :=
  (List.zip headers cells).foldl (fun d kv => dictInsert d kv.1 (kv.2.getD "")) []

/-- Width of the worksheet grid: the number of columns reported by the
sheet's dimensions (the maximal row length). -/
def sheetWidth (ws : List (List Cell)) : Nat :=
  ws.foldr (fun r acc => max r.length acc) 0

/-- Pad one row with null cells up to the sheet width. -/
def padTo (w : Nat) (r : List Cell) : List Cell :=
  r ++ List.replicate (w - r.length) none

/-- Models the external library call `ws.iter_rows(values_only=True)` of
main.py line 106: an `openpyxl` read-only worksheet yields every row
padded with empty (`None`) cells to the sheet's column count. -/
def iter_rows (ws : List (List Cell)) : List (List Cell) :=
  ws.map (padTo (sheetWidth ws))

/-- Fatal (initialization-time) errors of the templater, named after the
spec's taxonomy; in the source all are raised as `ValueError`
distinguished by message. -/
inductive TErr where
  | emptyData
  | missingColumn
  deriving DecidableEq, Repr

/-- Per-row recoverable errors, named after the spec's taxonomy.
`keyError` models the Python `KeyError` raised by `data[col]` when a row
lacks the selector key. -/
inductive RowErr where
  | keyError
  | templateNotFound
  | renderError
  | saveError
  deriving DecidableEq, Repr

/-- `read_excel` (main.py lines 88-117): rejects a sheet with at most one
row (`ws.max_row <= 1`), takes the first delivered row as headers and
turns every later row into a dictionary by zipping it against the
headers. -/
def read_excel (ws : List (List Cell)) : Except TErr (List Row) :=
  if ws.length ≤ 1 then .error .emptyData
  else
    let rows := iter_rows ws
    let headers := rows.headD []
    let data_rows := rows.tail
    .ok (data_rows.map (rowDict headers))

/-- `check_template_column` (main.py lines 64-75): fails when the loaded
data is empty or the first row does not contain the template column as a
key. -/
def check_template_column (data : List Row) (col : String) : Except TErr Unit :=
  if data = [] ∨ ¬ hasKey (data.headD []) col then .error .missingColumn
  else .ok ()

/-- Python `x or default` on an optional string argument: `None` and the
empty string are both falsy. -/
def pyOr (x : Option String) (default : String) : String :=
  match x with
  | none => default
  | some s => if s = "" then default else s

/-- The resolved state of an `ExcelWordTemplater` instance after
`__init__` (main.py lines 17-62). -/
structure Templater where
  data : List Row
  template_column : String
  output_column : Option String
  default_output_name : String
  default_output_name_index : Nat
  data_folder : String
  template_folder : String
  output_folder : String
  deriving Repr

/-- The construction arguments of `ExcelWordTemplater.__init__`;
optional arguments default to `None`. -/
structure Args where
  template_column : String
  output_column : Option String := none
  default_output_name : Option String := none
  data_folder : Option String := none
  template_folder : Option String := none
  output_folder : Option String := none

/-- `__init__` (main.py lines 17-62): loads the Excel data, checks the
template column, and resolves names and folders.  The default-name
counter starts at 1 (line 43).  Folder creation (line 62) only touches
the file system idempotently and is not modelled. -/
def initTemplater (ws : List (List Cell)) (a : Args) : Except TErr Templater :=
  match read_excel ws with
  | .error e => .error e
  | .ok data =>
  match check_template_column data a.template_column with
  | .error e => .error e
  | .ok _ =>
  let data_folder := pyOr a.data_folder "./data"
  .ok
    { data := data
      template_column := a.template_column
      output_column := a.output_column
      default_output_name := pyOr a.default_output_name "output"
      default_output_name_index := 1
      data_folder := data_folder
      template_folder := data_folder ++ "/" ++ pyOr a.template_folder "templates"
      output_folder := data_folder ++ "/" ++ pyOr a.output_folder "output" }

/-- `render_template` (main.py lines 119-139).  The file system `fs` is
the list of existing paths; `renderOk` is the outcome of the external
docx engine's load-and-merge (lines 132-139), whose success produces an
in-memory document (modelled as `Unit`). -/
def render_template (t : Templater) (fs : List String) (row : Row) (renderOk : Bool) :
    Except RowErr Unit :=
  match dictGet row (some t.template_column) with
  | none => .error .keyError
  | some template_name =>
    let template_path := t.template_folder ++ "/" ++ template_name ++ ".docx"
    if template_name = "" ∨ template_path ∉ fs then .error .templateNotFound
    else if renderOk then .ok () else .error .renderError

/-- The plain candidate path `{output_folder}/{name}.docx`
(main.py line 153). -/
def outPathPlain (folder name : String) : String :=
  folder ++ "/" ++ name ++ ".docx"

/-- The suffixed candidate path `{output_folder}/{name}_{n}.docx`
(main.py lines 156 and 159-162). -/
def outPathIdx (folder name : String) (n : Nat) : String :=
  folder ++ "/" ++ name ++ "_" ++ Nat.repr n ++ ".docx"

/-- The `while output_path.exists()` probing loop of main.py lines
154-157, as a fuel-indexed recursion on the loop state
(current candidate `path`, next suffix `index`).  The fuel never runs out
when it is at least `fs.length + 1`, because every iteration certifies a
distinct member of `fs` (see `chooseOutputPath_rowName`). -/
def probeLoop (fs : List String) (folder name : String) : String → Nat → Nat → String
  | path, _, 0 => path
  | path, index, fuel + 1 =>
    if path ∈ fs then probeLoop fs folder name (outPathIdx folder name index) (index + 1) fuel
    else path

/-- The condition of main.py lines 147-151: the output column is
configured (truthy), present in the row, and its value is non-empty.
Returns the row-supplied output name when the row-name branch is taken. -/
def rowNameOf (t : Templater) (row : Row) : Option String :=
  match t.output_column with
  | none => none
  | some c =>
    if c = "" then none
    else
      match dictGet row (some c) with
      | none => none
      | some v => if v = "" then none else some v

/-- The output-path choice of `save_docx` (main.py lines 147-163):
returns the chosen path together with the updated default-name counter.
The row-name branch probes for a free path and leaves the counter alone;
the default branch takes `{default_output_name}_{counter}.docx` without
any existence check and increments the counter. -/
def chooseOutputPath (t : Templater) (fs : List String) (row : Row) (c : Nat) :
    String × Nat :=
  match rowNameOf t row with
  | some output_name =>
    (probeLoop fs t.output_folder output_name
      (outPathPlain t.output_folder output_name) 1 (fs.length + 1), c)
  | none =>
    (outPathIdx t.output_folder t.default_output_name c, c + 1)

/-- `save_docx` (main.py lines 141-171): chooses the output path, then
attempts `doc.save` (an external effect with outcome `saveOk`).  Returns
the result together with the updated counter and file system; a
successful save creates the file, a failed one re-raises after the
counter update already happened. -/
def save_docx (t : Templater) (fs : List String) (c : Nat) (row : Row) (saveOk : Bool) :
    Except RowErr String × Nat × List String :=
  let (output_path, c') := chooseOutputPath t fs row c
  if saveOk then (.ok output_path, c', output_path :: fs)
  else (.error .saveError, c', fs)

/-- One data row together with the outcomes of its two external effects:
the docx engine's render and the file save. -/
structure RowIn where
  row : Row
  renderOk : Bool
  saveOk : Bool

/-- The body of the `for` loop of `run` (main.py lines 178-186): render,
then save; any raised error is caught at the row boundary and the row
yields no path. -/
def processRow (t : Templater) (c : Nat) (fs : List String) (r : RowIn) :
    Option String × Nat × List String :=
  match render_template t fs r.row r.renderOk with
  | .error _ => (none, c, fs)
  | .ok _ =>
    match save_docx t fs c r.row r.saveOk with
    | (.ok p, c', fs') => (some p, c', fs')
    | (.error _, c', fs') => (none, c', fs')

/-- `run` (main.py lines 173-188): processes the rows in order, threading
the counter and the file system, collecting the successfully written
output paths. -/
def run (t : Templater) (c : Nat) (fs : List String) :
    List RowIn → List String × Nat × List String
  | [] => ([], c, fs)
  | r :: rs =>
    let (o, c', fs') := processRow t c fs r
    let (ps, c'', fs'') := run t c' fs' rs
    ((match o with | some p => p :: ps | none => ps), c'', fs'')

/-- Per-row outcome record used to instrument a run: the row was skipped
by a raised error, or it reached `save_docx` on the row-name branch or on
the default branch, with the chosen path and the save outcome. -/
inductive RowOutcome where
  | skipped (e : RowErr)
  | named (p : String) (ok : Bool)
  | defaulted (p : String) (ok : Bool)
  deriving DecidableEq, Repr

/-- The outcome of one row, together with the state it leaves behind. -/
def stepRow (t : Templater) (c : Nat) (fs : List String) (r : RowIn) :
    RowOutcome × Nat × List String :=
  match render_template t fs r.row r.renderOk with
  | .error e => (.skipped e, c, fs)
  | .ok _ =>
    let (p, c') := chooseOutputPath t fs r.row c
    let fs' := if r.saveOk then p :: fs else fs
    if (rowNameOf t r.row).isSome then (.named p r.saveOk, c', fs')
    else (.defaulted p r.saveOk, c', fs')

/-- The instrumented trace of a run: one outcome per input row. -/
def runTrace (t : Templater) (c : Nat) (fs : List String) : List RowIn → List RowOutcome
  | [] => []
  | r :: rs =>
    let (oc, c', fs') := stepRow t c fs r
    oc :: runTrace t c' fs' rs

/-- The path written by a successful row, if any. -/
def outcomePath : RowOutcome → Option String
  | .named p true => some p
  | .defaulted p true => some p
  | _ => none

/-- The path chosen on the default branch, if the row took it. -/
def outcomeDefaultPath : RowOutcome → Option String
  | .defaulted p _ => some p
  | _ => none

/-- Whether the outcome took the default-name branch. -/
def isDefaulted : RowOutcome → Bool
  | .defaulted _ _ => true
  | _ => false

/-- The right-most value bound to a key in a key-value sequence; used to
state which cell wins when the header row repeats a column name. -/
def lastAssoc : List (Cell × String) → Cell → Option String
  | [], _ => none
  | kv :: rest, k =>
    match lastAssoc rest k with
    | some v => some v
    | none => if kv.1 = k then some kv.2 else none

/-- A concrete templater state used to evaluate the model on sample
inputs: template column `t`, output column `o`, default folders. -/
def sampleT : Templater where
  data := []
  template_column := "t"
  output_column := some "o"
  default_output_name := "output"
  default_output_name_index := 1
  data_folder := "./data"
  template_folder := "./data/templates"
  output_folder := "./data/output"

/-- A sample row selecting template `a` and supplying output name `foo`. -/
def rowFoo : Row := [(some "t", "a"), (some "o", "foo")]

/-- A sample row selecting template `a` with no output-name column. -/
def rowDefault : Row := [(some "t", "a")]

/-- A sample file system containing only the template `a.docx`. -/
def fsTemplates : List String := ["./data/templates/a.docx"]

/-- A sample output directory state where `foo.docx` and `foo_1.docx`
already exist. -/
def fsFoo : List String := ["./data/output/foo.docx", "./data/output/foo_1.docx"]

/-- Sample run input: the `foo` row whose save fails. -/
def rowInFooFail : RowIn where
  row := rowFoo
  renderOk := true
  saveOk := false

/-- Sample run input: the `foo` row whose render and save succeed. -/
def rowInFooOk : RowIn where
  row := rowFoo
  renderOk := true
  saveOk := true

/-- Sample run input: a row selecting the non-existent template `bad`. -/
def rowInBad : RowIn where
  row := [(some "t", "bad")]
  renderOk := true
  saveOk := true

/-! ## Dictionary lemmas -/

theorem dictGet_insert (d : Row) (k : Cell) (v : String) (k' : Cell) :
    dictGet (dictInsert d k v) k' = if k = k' then some v else dictGet d k' := by
  induction d with
  | nil => simp [dictInsert, dictGet]
  | cons kv rest ih =>
    by_cases h : kv.1 = k
    · subst h
      by_cases h' : kv.1 = k' <;> simp [dictInsert, dictGet, h']
    · by_cases h' : kv.1 = k'
      · have hne : k ≠ k' := fun he => h (by rw [he, h'])
        simp [dictInsert, dictGet, h, h', hne, Ne.symm hne]
      · simp [dictInsert, dictGet, h, h', ih]

theorem dictKeys_insert_of_notMem (d : Row) (k : Cell) (v : String) (h : k ∉ dictKeys d) :
    dictInsert d k v = d ++ [(k, v)] := by
  induction d with
  | nil => simp [dictInsert]
  | cons kv rest ih =>
    simp only [dictKeys, List.map_cons, List.mem_cons] at h
    push_neg at h
    simp [dictInsert, Ne.symm h.1, ih (by simpa [dictKeys] using h.2)]

theorem foldl_dictInsert_fresh (kvs : List (Cell × String)) (d : Row)
    (hnd : (kvs.map Prod.fst).Nodup)
    (hfresh : ∀ k ∈ kvs.map Prod.fst, k ∉ dictKeys d) :
    kvs.foldl (fun d kv => dictInsert d kv.1 kv.2) d = d ++ kvs := by
  induction kvs generalizing d with
  | nil => simp
  | cons kv rest ih =>
    simp only [List.map_cons, List.nodup_cons] at hnd
    have hk : kv.1 ∉ dictKeys d := hfresh kv.1 (by simp)
    have step : dictInsert d kv.1 kv.2 = d ++ [(kv.1, kv.2)] :=
      dictKeys_insert_of_notMem d kv.1 kv.2 hk
    have hfresh' : ∀ k ∈ rest.map Prod.fst, k ∉ dictKeys (d ++ [(kv.1, kv.2)]) := by
      intro k hkmem
      simp only [dictKeys, List.map_append, List.mem_append, List.map_cons]
      push_neg
      refine ⟨hfresh k (by simp [hkmem]), ?_⟩
      simp only [List.map_nil, List.mem_cons, List.not_mem_nil, or_false]
      intro he
      exact hnd.1 (he ▸ hkmem)
    simp only [List.foldl_cons, step, ih _ hnd.2 hfresh', List.append_assoc,
      List.singleton_append]

theorem rowDict_eq_zip (H r : List Cell) (hnd : H.Nodup) (hlen : H.length ≤ r.length) :
    rowDict H r = (H.zip r).map (fun kv => (kv.1, kv.2.getD "")) := by
  unfold rowDict
  have hfold : (H.zip r).foldl (fun d kv => dictInsert d kv.1 (kv.2.getD "")) [] =
      ((H.zip r).map (fun kv => (kv.1, kv.2.getD ""))).foldl
        (fun d kv => dictInsert d kv.1 kv.2) [] := by
    rw [List.foldl_map]
  rw [hfold]
  have hkeys : ((H.zip r).map (fun kv => (kv.1, kv.2.getD ""))).map Prod.fst = H := by
    rw [List.map_map]
    have : (Prod.fst ∘ fun kv : Cell × Cell => (kv.1, kv.2.getD "")) = Prod.fst := rfl
    rw [this, List.map_fst_zip _ _ hlen]
  rw [foldl_dictInsert_fresh _ _ (by rw [hkeys]; exact hnd)
    (by intro k _; simp [dictKeys])]
  simp

theorem dictKeys_rowDict (H r : List Cell) (hnd : H.Nodup) (hlen : H.length ≤ r.length) :
    dictKeys (rowDict H r) = H := by
  rw [rowDict_eq_zip H r hnd hlen]
  unfold dictKeys
  rw [List.map_map]
  have : (Prod.fst ∘ fun kv : Cell × Cell => (kv.1, kv.2.getD "")) = Prod.fst := rfl
  rw [this, List.map_fst_zip _ _ hlen]

theorem dictGet_getElem (l : Row) (hnd : (dictKeys l).Nodup) (j : Nat) (hj : j < l.length) :
    dictGet l (l[j].1) = some l[j].2 := by
  induction l generalizing j with
  | nil => simp at hj
  | cons kv rest ih =>
    cases j with
    | zero => simp [dictGet]
    | succ j =>
      have hj' : j < rest.length := by simpa using hj
      have hmem : rest[j].1 ∈ dictKeys rest :=
        List.mem_map_of_mem Prod.fst (rest.getElem_mem hj')
      have hcons : dictKeys (kv :: rest) = kv.1 :: dictKeys rest := rfl
      rw [hcons, List.nodup_cons] at hnd
      have hne : kv.1 ≠ rest[j].1 := fun he => hnd.1 (he ▸ hmem)
      simp [dictGet, hne, ih hnd.2 j hj']

/-! ## Worksheet padding lemmas -/

theorem sheetWidth_cons (r : List Cell) (ws : List (List Cell)) :
    sheetWidth (r :: ws) = max r.length (sheetWidth ws) := rfl

theorem sheetWidth_le (ws : List (List Cell)) (n : Nat) (h : ∀ r ∈ ws, r.length ≤ n) :
    sheetWidth ws ≤ n := by
  induction ws with
  | nil => simp [sheetWidth]
  | cons r ws ih =>
    rw [sheetWidth_cons]
    exact max_le (h r (by simp)) (ih fun r hr => h r (by simp [hr]))

theorem padTo_self (r : List Cell) : padTo r.length r = r := by
  simp [padTo]

theorem padTo_length (w : Nat) (r : List Cell) (h : r.length ≤ w) :
    (padTo w r).length = w := by
  simp only [padTo, List.length_append, List.length_replicate]
  omega

theorem padTo_getD (w : Nat) (r : List Cell) (j : Nat) (_hj : j < w) :
    (padTo w r).getD j none = r.getD j none := by
  by_cases hjr : j < r.length
  · simp [padTo, List.getD_eq_getElem?_getD, List.getElem?_append_left hjr]
  · have h1 : r.getD j none = none := by
      simp [List.getD_eq_getElem?_getD, List.getElem?_eq_none (by omega : r.length ≤ j)]
    rw [h1]
    simp only [padTo, List.getD_eq_getElem?_getD,
      List.getElem?_append_right (by omega : r.length ≤ j)]
    by_cases hjw : j - r.length < w - r.length
    · simp [List.getElem?_replicate, hjw]
    · simp [List.getElem?_replicate, hjw]

/-! ## Row Loader lemmas -/

theorem read_excel_cons (H : List Cell) (rows : List (List Cell)) (hne : rows ≠ [])
    (hlen : ∀ r ∈ rows, r.length ≤ H.length) :
    read_excel (H :: rows) = .ok (rows.map (fun r => rowDict H (padTo H.length r))) := by
  have hW : sheetWidth (H :: rows) = H.length := by
    rw [sheetWidth_cons]
    exact max_eq_left (sheetWidth_le rows H.length hlen)
  have hgt : ¬ (H :: rows).length ≤ 1 := by
    cases rows with
    | nil => exact absurd rfl hne
    | cons r rs => simp
  unfold read_excel
  rw [if_neg hgt]
  unfold iter_rows
  rw [hW]
  simp [padTo_self]

theorem dictGet_zipmap (H : List Cell) : ∀ (p : List Cell), H.Nodup →
    H.length ≤ p.length → ∀ j, j < H.length →
    dictGet ((H.zip p).map (fun kv => (kv.1, kv.2.getD ""))) (H.getD j none) =
      some ((p.getD j none).getD "") := by
  induction H with
  | nil => intro p _ _ j hj; simp at hj
  | cons h H ih =>
    intro p hnd hlen j hj
    cases p with
    | nil => simp at hlen
    | cons q p =>
      rw [List.nodup_cons] at hnd
      cases j with
      | zero => simp [dictGet]
      | succ j =>
        have hj' : j < H.length := by simpa using hj
        have hmem : H.getD j none ∈ H := by
          rw [List.getD_eq_getElem?_getD, List.getElem?_eq_getElem hj']
          exact List.getElem_mem hj'
        have hne : h ≠ H.getD j none := fun he => hnd.1 (he ▸ hmem)
        simp only [List.zip_cons_cons, List.map_cons, List.getD_cons_succ]
        simp only [dictGet, hne, if_neg hne]
        exact ih p hnd.2 (by simpa using hlen) j hj'

theorem rowDict_padded_getD (H : List Cell) (r : List Cell) (hnd : H.Nodup)
    (hr : r.length ≤ H.length) (j : Nat) (hj : j < H.length) :
    dictGet (rowDict H (padTo H.length r)) (H.getD j none) =
      some ((r.getD j none).getD "") := by
  have hpl : (padTo H.length r).length = H.length := padTo_length _ _ hr
  have hzl : H.length ≤ (padTo H.length r).length := le_of_eq hpl.symm
  rw [rowDict_eq_zip H _ hnd hzl, dictGet_zipmap H _ hnd hzl j hj,
    padTo_getD _ _ _ hj]

/-! ## Last-wins lemmas for duplicate headers -/

theorem lastAssoc_cons (kv : Cell × String) (rest : List (Cell × String)) (k : Cell) :
    lastAssoc (kv :: rest) k =
      match lastAssoc rest k with
      | some v => some v
      | none => if kv.1 = k then some kv.2 else none := rfl

theorem dictGet_foldl_insert (kvs : List (Cell × String)) (d : Row) (k : Cell) :
    dictGet (kvs.foldl (fun d kv => dictInsert d kv.1 kv.2) d) k =
      match lastAssoc kvs k with
      | some v => some v
      | none => dictGet d k := by
  induction kvs generalizing d with
  | nil => simp [lastAssoc]
  | cons kv rest ih =>
    rw [List.foldl_cons, ih, lastAssoc_cons]
    cases hrest : lastAssoc rest k with
    | some v => simp
    | none =>
      simp only []
      rw [dictGet_insert]
      by_cases h : kv.1 = k <;> simp [h]

theorem dictGet_rowDict_lastAssoc (H r : List Cell) (k : Cell) :
    dictGet (rowDict H r) k =
      lastAssoc ((H.zip r).map (fun kv => (kv.1, kv.2.getD ""))) k := by
  unfold rowDict
  rw [show ((H.zip r).foldl (fun d kv => dictInsert d kv.1 (kv.2.getD "")) []) =
      (((H.zip r).map (fun kv => (kv.1, kv.2.getD ""))).foldl
        (fun d kv => dictInsert d kv.1 kv.2) []) from by rw [List.foldl_map]]
  rw [dictGet_foldl_insert]
  cases h : lastAssoc ((H.zip r).map (fun kv => (kv.1, kv.2.getD ""))) k with
  | some v => simp
  | none => simp [dictGet]

/-! ## Injectivity of the decimal suffix

The probing loop builds candidate paths `{name}_{n}.docx` for successive
`n`; its termination bound rests on distinct suffixes giving distinct
path strings, i.e. on `Nat.repr` being injective. -/

theorem toDigitsCore_eq_digits (fuel : Nat) : ∀ (n : Nat) (ds : List Char), 0 < n →
    n ≤ fuel →
    Nat.toDigitsCore 10 fuel n ds =
      ((Nat.digits 10 n).reverse.map Nat.digitChar) ++ ds := by
  induction fuel with
  | zero => intro n ds hn hf; omega
  | succ fuel ih =>
    intro n ds hn hf
    by_cases h : n / 10 = 0
    · have hstep : Nat.toDigitsCore 10 (fuel + 1) n ds = Nat.digitChar (n % 10) :: ds := by
        simp [Nat.toDigitsCore, h]
      rw [hstep, Nat.digits_def' (by norm_num : (1:Nat) < 10) hn, h, Nat.digits_zero]
      simp
    · have hstep : Nat.toDigitsCore 10 (fuel + 1) n ds =
          Nat.toDigitsCore 10 fuel (n / 10) (Nat.digitChar (n % 10) :: ds) := by
        simp [Nat.toDigitsCore, h]
      have hn' : 0 < n / 10 := Nat.pos_of_ne_zero h
      have hlt : n / 10 < n := Nat.div_lt_self hn (by norm_num)
      rw [hstep, ih (n / 10) _ hn' (by omega),
        Nat.digits_def' (by norm_num : (1:Nat) < 10) hn]
      simp

theorem toDigits_eq_digits (n : Nat) (hn : 0 < n) :
    Nat.toDigits 10 n = (Nat.digits 10 n).reverse.map Nat.digitChar := by
  unfold Nat.toDigits
  rw [toDigitsCore_eq_digits (n + 1) n [] hn (by omega)]
  simp

theorem digitChar_inj_lt : ∀ a, a < 10 → ∀ b, b < 10 →
    Nat.digitChar a = Nat.digitChar b → a = b := by
  decide

theorem map_digitChar_inj : ∀ (l1 l2 : List Nat), (∀ x ∈ l1, x < 10) →
    (∀ x ∈ l2, x < 10) → l1.map Nat.digitChar = l2.map Nat.digitChar → l1 = l2 := by
  intro l1
  induction l1 with
  | nil =>
    intro l2 _ _ h
    cases l2 with
    | nil => rfl
    | cons b l2 => simp at h
  | cons a l1 ih =>
    intro l2 h1 h2 h
    cases l2 with
    | nil => simp at h
    | cons b l2 =>
      simp only [List.map_cons, List.cons.injEq] at h
      have hab : a = b := digitChar_inj_lt a (h1 a (by simp)) b (h2 b (by simp)) h.1
      rw [hab, ih l2 (fun x hx => h1 x (by simp [hx])) (fun x hx => h2 x (by simp [hx])) h.2]

theorem toDigits_inj (m n : Nat) (h : Nat.toDigits 10 m = Nat.toDigits 10 n) : m = n := by
  rcases Nat.eq_zero_or_pos m with hm | hm <;> rcases Nat.eq_zero_or_pos n with hn | hn
  · omega
  · exfalso
    subst hm
    rw [toDigits_eq_digits n hn] at h
    have h0 : Nat.toDigits 10 0 = ['0'] := rfl
    rw [h0] at h
    have h0d : (['0'] : List Char) = ([0] : List Nat).map Nat.digitChar := rfl
    rw [h0d] at h
    have := map_digitChar_inj [0] (Nat.digits 10 n).reverse (by simp)
      (fun x hx => Nat.digits_lt_base (by norm_num) (List.mem_reverse.mp hx)) h
    have hd : Nat.digits 10 n = [0] := by
      have := congrArg List.reverse this
      simpa using this.symm
    have : n = 0 := by
      have hof := Nat.ofDigits_digits 10 n
      rw [hd] at hof
      simpa [Nat.ofDigits] using hof.symm
    omega
  · exfalso
    subst hn
    rw [toDigits_eq_digits m hm] at h
    have h0 : Nat.toDigits 10 0 = ['0'] := rfl
    rw [h0] at h
    have h0d : (['0'] : List Char) = ([0] : List Nat).map Nat.digitChar := rfl
    rw [h0d] at h
    have := map_digitChar_inj (Nat.digits 10 m).reverse [0]
      (fun x hx => Nat.digits_lt_base (by norm_num) (List.mem_reverse.mp hx)) (by simp) h
    have hd : Nat.digits 10 m = [0] := by
      have := congrArg List.reverse this
      simpa using this
    have : m = 0 := by
      have hof := Nat.ofDigits_digits 10 m
      rw [hd] at hof
      simpa [Nat.ofDigits] using hof.symm
    omega
  · rw [toDigits_eq_digits m hm, toDigits_eq_digits n hn] at h
    have := map_digitChar_inj (Nat.digits 10 m).reverse (Nat.digits 10 n).reverse
      (fun x hx => Nat.digits_lt_base (by norm_num) (List.mem_reverse.mp hx))
      (fun x hx => Nat.digits_lt_base (by norm_num) (List.mem_reverse.mp hx)) h
    have hd : Nat.digits 10 m = Nat.digits 10 n := by
      have := congrArg List.reverse this
      simpa using this
    exact Nat.digits_inj_iff.mp hd

theorem nat_repr_inj (m n : Nat) (h : Nat.repr m = Nat.repr n) : m = n := by
  apply toDigits_inj
  have := congrArg String.data h
  simpa [Nat.repr, List.asString] using this

theorem outPathIdx_inj (folder name : String) (m n : Nat)
    (h : outPathIdx folder name m = outPathIdx folder name n) : m = n := by
  have hd := congrArg String.data h
  simp only [outPathIdx, String.data_append, List.append_assoc] at hd
  have h1 := List.append_cancel_left hd
  have h2 := List.append_cancel_left h1
  have h3 := List.append_cancel_left h2
  have h4 := List.append_cancel_left h3
  have h5 := List.append_cancel_right h4
  exact nat_repr_inj m n (String.ext h5)

/-! ## Probing loop lemmas -/

theorem probeLoop_of_free (fs : List String) (folder name path : String) (idx fuel : Nat)
    (h : path ∉ fs) : probeLoop fs folder name path idx fuel = path := by
  cases fuel <;> simp [probeLoop, h]

theorem probeLoop_finds (fs : List String) (folder name : String) :
    ∀ (fuel idx : Nat) (path : String), path ∈ fs →
    (∃ j, j < fuel ∧ outPathIdx folder name (idx + j) ∉ fs) →
    ∃ j, j < fuel ∧
      probeLoop fs folder name path idx fuel = outPathIdx folder name (idx + j) ∧
      outPathIdx folder name (idx + j) ∉ fs ∧
      ∀ j', j' < j → outPathIdx folder name (idx + j') ∈ fs := by
  intro fuel
  induction fuel with
  | zero =>
    intro idx path hp hex
    obtain ⟨j, hj, _⟩ := hex
    omega
  | succ fuel ih =>
    intro idx path hp hex
    by_cases hfree : outPathIdx folder name idx ∈ fs
    · obtain ⟨j, hj, hjf⟩ := hex
      have hj0 : j ≠ 0 := by
        intro h0
        rw [h0, Nat.add_zero] at hjf
        exact hjf hfree
      obtain ⟨j1, rfl⟩ : ∃ j1, j = j1 + 1 := ⟨j - 1, by omega⟩
      have hex' : ∃ j2, j2 < fuel ∧ outPathIdx folder name (idx + 1 + j2) ∉ fs :=
        ⟨j1, by omega, by rw [show idx + 1 + j1 = idx + (j1 + 1) by omega]; exact hjf⟩
      obtain ⟨j2, hj2, heq, hfree2, hmin⟩ :=
        ih (idx + 1) (outPathIdx folder name idx) hfree hex'
      refine ⟨j2 + 1, by omega, ?_, ?_, ?_⟩
      · rw [probeLoop, if_pos hp, heq]
        rw [show idx + 1 + j2 = idx + (j2 + 1) by omega]
      · rw [show idx + (j2 + 1) = idx + 1 + j2 by omega]
        exact hfree2
      · intro j' hj'
        cases j' with
        | zero => simpa using hfree
        | succ j3 =>
          rw [show idx + (j3 + 1) = idx + 1 + j3 by omega]
          exact hmin j3 (by omega)
    · refine ⟨0, by omega, ?_, by simpa using hfree, by omega⟩
      rw [probeLoop, if_pos hp, probeLoop_of_free fs folder name _ _ _ hfree,
        Nat.add_zero]

theorem nodup_subset_length {l fs : List String} (hn : l.Nodup)
    (hs : ∀ x ∈ l, x ∈ fs) : l.length ≤ fs.length := by
  classical
  have h1 : l.toFinset.card = l.length := List.toFinset_card_of_nodup hn
  have h2 : l.toFinset ⊆ fs.toFinset := by
    intro x hx
    rw [List.mem_toFinset] at hx ⊢
    exact hs x hx
  calc l.length = l.toFinset.card := h1.symm
    _ ≤ fs.toFinset.card := Finset.card_le_card h2
    _ ≤ fs.length := fs.toFinset_card_le

theorem exists_free_idx (fs : List String) (folder name : String) :
    ∃ j, j < fs.length + 1 ∧ outPathIdx folder name (1 + j) ∉ fs := by
  by_contra hc
  push_neg at hc
  have hinj : Function.Injective (fun j => outPathIdx folder name (1 + j)) := by
    intro a b hab
    have := outPathIdx_inj folder name (1 + a) (1 + b) hab
    omega
  have hnd : ((List.range (fs.length + 1)).map
      (fun j => outPathIdx folder name (1 + j))).Nodup :=
    (List.nodup_range _).map hinj
  have hsub : ∀ x ∈ (List.range (fs.length + 1)).map
      (fun j => outPathIdx folder name (1 + j)), x ∈ fs := by
    intro x hx
    rw [List.mem_map] at hx
    obtain ⟨j, hj, rfl⟩ := hx
    exact hc j (by simpa using hj)
  have hlen := nodup_subset_length hnd hsub
  simp at hlen

theorem chooseRowPath_spec (fs : List String) (folder name : String) :
    (outPathPlain folder name ∉ fs →
      probeLoop fs folder name (outPathPlain folder name) 1 (fs.length + 1) =
        outPathPlain folder name) ∧
    (outPathPlain folder name ∈ fs →
      ∃ n, 1 ≤ n ∧
        probeLoop fs folder name (outPathPlain folder name) 1 (fs.length + 1) =
          outPathIdx folder name n ∧
        outPathIdx folder name n ∉ fs ∧
        ∀ m, 1 ≤ m → m < n → outPathIdx folder name m ∈ fs) := by
  constructor
  · intro h
    exact probeLoop_of_free fs folder name _ 1 (fs.length + 1) h
  · intro h
    obtain ⟨j, _, heq, hfree, hmin⟩ :=
      probeLoop_finds fs folder name (fs.length + 1) 1 _ h (exists_free_idx fs folder name)
    refine ⟨1 + j, by omega, heq, hfree, ?_⟩
    intro m h1m hmn
    have := hmin (m - 1) (by omega)
    rwa [show 1 + (m - 1) = m by omega] at this

theorem chooseRowPath_not_exists (fs : List String) (folder name : String) :
    probeLoop fs folder name (outPathPlain folder name) 1 (fs.length + 1) ∉ fs := by
  by_cases h : outPathPlain folder name ∈ fs
  · obtain ⟨n, _, heq, hfree, _⟩ := (chooseRowPath_spec fs folder name).2 h
    rw [heq]
    exact hfree
  · rw [(chooseRowPath_spec fs folder name).1 h]
    exact h

/-! ## Branch lemmas for the Output Namer -/

theorem chooseOutputPath_rowName (t : Templater) (fs : List String) (row : Row) (c : Nat)
    (v : String) (h : rowNameOf t row = some v) :
    chooseOutputPath t fs row c =
      (probeLoop fs t.output_folder v (outPathPlain t.output_folder v) 1
        (fs.length + 1), c) := by
  unfold chooseOutputPath
  rw [h]

theorem chooseOutputPath_default (t : Templater) (fs : List String) (row : Row) (c : Nat)
    (h : rowNameOf t row = none) :
    chooseOutputPath t fs row c =
      (outPathIdx t.output_folder t.default_output_name c, c + 1) := by
  unfold chooseOutputPath
  rw [h]

/-! ## Run and trace lemmas -/

theorem processRow_eq_stepRow (t : Templater) (c : Nat) (fs : List String) (r : RowIn) :
    processRow t c fs r =
      (outcomePath (stepRow t c fs r).1, (stepRow t c fs r).2) := by
  unfold processRow stepRow save_docx
  cases hre : render_template t fs r.row r.renderOk with
  | error e => simp [outcomePath]
  | ok u =>
    cases u
    rcases hcp : chooseOutputPath t fs r.row c with ⟨p, c'⟩
    cases hs : r.saveOk <;>
      cases hn : (rowNameOf t r.row).isSome <;>
        simp [hcp, hs, hn, outcomePath]

theorem runTrace_length (t : Templater) :
    ∀ (rows : List RowIn) (c : Nat) (fs : List String),
    (runTrace t c fs rows).length = rows.length := by
  intro rows
  induction rows with
  | nil => intro c fs; rfl
  | cons r rs ih =>
    intro c fs
    rw [runTrace]
    simp [ih]

theorem run_eq_trace (t : Templater) :
    ∀ (rows : List RowIn) (c : Nat) (fs : List String),
    (run t c fs rows).1 = (runTrace t c fs rows).filterMap outcomePath := by
  intro rows
  induction rows with
  | nil => intro c fs; rfl
  | cons r rs ih =>
    intro c fs
    rw [run, runTrace, processRow_eq_stepRow]
    rcases hst : stepRow t c fs r with ⟨oc, c', fs'⟩
    simp only [List.filterMap_cons]
    cases ho : outcomePath oc <;> simp [ih, ho]

theorem trace_default_paths (t : Templater) :
    ∀ (rows : List RowIn) (c : Nat) (fs : List String),
    (runTrace t c fs rows).filterMap outcomeDefaultPath =
      (List.range ((runTrace t c fs rows).countP isDefaulted)).map
        (fun k => outPathIdx t.output_folder t.default_output_name (c + k)) := by
  intro rows
  induction rows with
  | nil => intro c fs; rfl
  | cons r rs ih =>
    intro c fs
    rw [runTrace]
    cases hre : render_template t fs r.row r.renderOk with
    | error e => simp [stepRow, hre, outcomeDefaultPath, isDefaulted, ih]
    | ok u =>
      cases u
      cases hrn : rowNameOf t r.row with
      | some v =>
        have hcp := chooseOutputPath_rowName t fs r.row c v hrn
        simp [stepRow, hre, hrn, hcp, outcomeDefaultPath, isDefaulted, ih]
      | none =>
        have hcp := chooseOutputPath_default t fs r.row c hrn
        simp only [stepRow, hre, hrn, hcp, Option.isSome_none, Bool.false_eq_true,
          if_false, List.filterMap_cons, List.countP_cons, outcomeDefaultPath,
          isDefaulted, if_true]
        rw [ih]
        rw [List.range_succ_eq_map, List.map_cons, List.map_map]
        congr 1
        simp only [List.map_inj_left, Function.comp_apply, List.mem_range]
        intro k hk
        congr 1
        omega

/-! ## Loader and initialization helper lemmas -/

theorem getD_map_lt (f : List Cell → Row) (l : List (List Cell)) (i : Nat)
    (h : i < l.length) : (l.map f).getD i [] = f (l.getD i []) := by
  rw [List.getD_eq_getElem?_getD, List.getD_eq_getElem?_getD, List.getElem?_map,
    List.getElem?_eq_getElem h]
  rfl

theorem read_excel_error_cases (ws : List (List Cell)) (e : TErr)
    (h : read_excel ws = .error e) : e = .emptyData := by
  unfold read_excel at h
  by_cases hlen : ws.length ≤ 1
  · rw [if_pos hlen] at h
    exact ((Except.error.injEq _ _).mp h).symm
  · rw [if_neg hlen] at h
    simp at h

theorem initTemplater_counter (ws : List (List Cell)) (a : Args) (s : Templater)
    (h : initTemplater ws a = .ok s) : s.default_output_name_index = 1 := by
  unfold initTemplater at h
  split at h
  · exact absurd h (by simp)
  · split at h
    · exact absurd h (by simp)
    · simp only [Except.ok.injEq] at h
      rw [← h]

/-! ## Claim theorems -/

/-- C1 (counterexample): the claim "the output path chosen by save_docx
never refers to an existing file, on both branches" is false: on the
default-name branch, with `output_1.docx` already on disk and the counter
at 1, `save_docx` chooses exactly that existing path and overwrites it. -/
theorem C1_default_branch_overwrites :
    (save_docx sampleT ["./data/output/output_1.docx"] 1 rowDefault true).1 =
      .ok "./data/output/output_1.docx" ∧
    "./data/output/output_1.docx" ∈ ["./data/output/output_1.docx"] := by
  constructor
  · rfl
  · decide

/-- C1 (amended): only on the row-supplied-name branch does the chosen
output path never refer to an existing file; the default-name branch
performs no existence check and can collide with an existing file. -/
theorem C1_rowName_branch_fresh (t : Templater) (fs : List String) (row : Row) (c : Nat)
    (v : String) (h : rowNameOf t row = some v) :
    (chooseOutputPath t fs row c).1 ∉ fs := by
  rw [chooseOutputPath_rowName t fs row c v h]
  exact chooseRowPath_not_exists fs t.output_folder v

/-- Witness for C1 (amended) at a concrete input. -/
theorem C1_rowName_branch_fresh_witness :
    rowNameOf sampleT rowFoo = some "foo" ∧
    (chooseOutputPath sampleT fsFoo rowFoo 1).1 ∉ fsFoo :=
  ⟨by decide, C1_rowName_branch_fresh sampleT fsFoo rowFoo 1 "foo" (by decide)⟩

/-- C3: on the row-supplied-name branch with value `v`, the Output Namer
chooses `{output_folder}/{v}.docx` when that path does not exist, and
otherwise `{output_folder}/{v}_{n}.docx` for the smallest `n ≥ 1` whose
path does not exist. -/
theorem C3_rowName_collision_probing (t : Templater) (fs : List String) (row : Row)
    (c : Nat) (v : String) (h : rowNameOf t row = some v) :
    (outPathPlain t.output_folder v ∉ fs →
      (chooseOutputPath t fs row c).1 = outPathPlain t.output_folder v) ∧
    (outPathPlain t.output_folder v ∈ fs →
      ∃ n, 1 ≤ n ∧
        (chooseOutputPath t fs row c).1 = outPathIdx t.output_folder v n ∧
        outPathIdx t.output_folder v n ∉ fs ∧
        ∀ m, 1 ≤ m → m < n → outPathIdx t.output_folder v m ∈ fs) := by
  rw [chooseOutputPath_rowName t fs row c v h]
  exact chooseRowPath_spec fs t.output_folder v

/-- Witness for C3: with `foo.docx` and `foo_1.docx` existing, the probe
is characterised by the theorem (the chosen path is `foo_2.docx`). -/
theorem C3_rowName_collision_probing_witness :
    rowNameOf sampleT rowFoo = some "foo" ∧
    ((outPathPlain sampleT.output_folder "foo" ∉ fsFoo →
      (chooseOutputPath sampleT fsFoo rowFoo 1).1 =
        outPathPlain sampleT.output_folder "foo") ∧
    (outPathPlain sampleT.output_folder "foo" ∈ fsFoo →
      ∃ n, 1 ≤ n ∧
        (chooseOutputPath sampleT fsFoo rowFoo 1).1 =
          outPathIdx sampleT.output_folder "foo" n ∧
        outPathIdx sampleT.output_folder "foo" n ∉ fsFoo ∧
        ∀ m, 1 ≤ m → m < n → outPathIdx sampleT.output_folder "foo" m ∈ fsFoo)) :=
  ⟨by decide, C3_rowName_collision_probing sampleT fsFoo rowFoo 1 "foo" (by decide)⟩

/-- C8: on the row-supplied-name branch the shared default-name counter
is left unchanged, both by the path choice and by `save_docx` as a whole,
for any file-system state (hence for any number of probing iterations). -/
theorem C8_rowName_counter_unchanged (t : Templater) (fs : List String) (row : Row)
    (c : Nat) (v : String) (saveOk : Bool) (h : rowNameOf t row = some v) :
    (chooseOutputPath t fs row c).2 = c ∧ (save_docx t fs c row saveOk).2.1 = c := by
  have hc := chooseOutputPath_rowName t fs row c v h
  constructor
  · rw [hc]
  · cases saveOk <;> simp [save_docx, hc]

/-- Witness for C8 at a concrete input with two probing iterations. -/
theorem C8_rowName_counter_unchanged_witness :
    rowNameOf sampleT rowFoo = some "foo" ∧
    (chooseOutputPath sampleT fsFoo rowFoo 5).2 = 5 ∧
    (save_docx sampleT fsFoo 5 rowFoo true).2.1 = 5 :=
  ⟨by decide, C8_rowName_counter_unchanged sampleT fsFoo rowFoo 5 "foo" true (by decide)⟩

/-- C9: on the default-name branch the counter is updated before the save
is attempted: even when the save fails, `save_docx` returns the advanced
counter (and an unchanged file system), and a subsequent default-named
row is assigned the next index `c + 1`. -/
theorem C9_default_counter_preincrement (t : Templater) (fs : List String) (row : Row)
    (c : Nat) (saveOk : Bool) (h : rowNameOf t row = none) :
    (save_docx t fs c row saveOk).2.1 = c + 1 ∧
    (saveOk = false →
      (save_docx t fs c row saveOk).1 = .error .saveError ∧
      (save_docx t fs c row saveOk).2.2 = fs) ∧
    (∀ row', rowNameOf t row' = none →
      (chooseOutputPath t (save_docx t fs c row saveOk).2.2 row'
          ((save_docx t fs c row saveOk).2.1)).1 =
        outPathIdx t.output_folder t.default_output_name (c + 1)) := by
  have hc := chooseOutputPath_default t fs row c h
  have h1 : (save_docx t fs c row saveOk).2.1 = c + 1 := by
    cases saveOk <;> simp [save_docx, hc]
  refine ⟨h1, ?_, ?_⟩
  · intro hs
    subst hs
    simp [save_docx, hc]
  · intro row' h'
    rw [chooseOutputPath_default t _ row' _ h', h1]

/-- Witness for C9: a failed default-branch save still consumes index 1,
and the next default-named row gets index 2. -/
theorem C9_default_counter_preincrement_witness :
    rowNameOf sampleT rowDefault = none ∧
    (save_docx sampleT [] 1 rowDefault false).2.1 = 1 + 1 ∧
    ((save_docx sampleT [] 1 rowDefault false).1 = .error .saveError ∧
      (save_docx sampleT [] 1 rowDefault false).2.2 = []) ∧
    (chooseOutputPath sampleT (save_docx sampleT [] 1 rowDefault false).2.2 rowDefault
        ((save_docx sampleT [] 1 rowDefault false).2.1)).1 =
      outPathIdx sampleT.output_folder sampleT.default_output_name (1 + 1) :=
  ⟨by decide,
    (C9_default_counter_preincrement sampleT [] rowDefault 1 false (by decide)).1,
    (C9_default_counter_preincrement sampleT [] rowDefault 1 false (by decide)).2.1 rfl,
    (C9_default_counter_preincrement sampleT [] rowDefault 1 false (by decide)).2.2
      rowDefault (by decide)⟩

/-- C4: the default-name counter starts at 1 at construction, and in any
run the k-th row reaching `save_docx` on the default-name branch is
assigned `{output_folder}/{default_output_name}_{k}.docx` (the counter is
incremented unconditionally on that branch), regardless of which files
exist in the output directory: the enumeration below never consults the
file-system state `fs`. -/
theorem C4_default_counter_paths (ws : List (List Cell)) (a : Args)
    (t : Templater) (fs : List String) (rows : List RowIn) :
    (initTemplater ws a).map (fun s => s.default_output_name_index) =
      (initTemplater ws a).map (fun _ => 1) ∧
    (runTrace t 1 fs rows).filterMap outcomeDefaultPath =
      (List.range ((runTrace t 1 fs rows).countP isDefaulted)).map
        (fun k => outPathIdx t.output_folder t.default_output_name (1 + k)) := by
  constructor
  · cases h : initTemplater ws a with
    | error e => rfl
    | ok s => simp [Except.map, initTemplater_counter ws a s h]
  · exact trace_default_paths t rows 1 fs

/-- C2: for a valid sheet with header row `H` (no duplicate header cells)
and `n` data rows none of which is wider than the header, `read_excel`
returns exactly `n` row mappings, each with key list equal to `H`; a null
cell, or a missing trailing cell of a short row, becomes the empty
string. -/
theorem C2_read_excel_rows (H : List Cell) (rows : List (List Cell))
    (hne : rows ≠ []) (hlen : ∀ r ∈ rows, r.length ≤ H.length) (hnd : H.Nodup) :
    ∃ data, read_excel (H :: rows) = .ok data ∧ data.length = rows.length ∧
      (∀ i, i < data.length → dictKeys (data.getD i []) = H) ∧
      (∀ i, i < data.length → ∀ j, j < H.length →
        dictGet (data.getD i []) (H.getD j none) =
          some (((rows.getD i []).getD j none).getD "")) := by
  refine ⟨rows.map (fun r => rowDict H (padTo H.length r)),
    read_excel_cons H rows hne hlen, by simp, ?_, ?_⟩
  · intro i hi
    rw [List.length_map] at hi
    rw [getD_map_lt _ rows i hi]
    have hmem : rows.getD i [] ∈ rows := by
      rw [List.getD_eq_getElem?_getD, List.getElem?_eq_getElem hi]
      exact List.getElem_mem hi
    exact dictKeys_rowDict H _ hnd (le_of_eq (padTo_length _ _ (hlen _ hmem)).symm)
  · intro i hi j hj
    rw [List.length_map] at hi
    rw [getD_map_lt _ rows i hi]
    have hmem : rows.getD i [] ∈ rows := by
      rw [List.getD_eq_getElem?_getD, List.getElem?_eq_getElem hi]
      exact List.getElem_mem hi
    exact rowDict_padded_getD H _ hnd (hlen _ hmem) j hj

/-- Witness for C2 on a 2-column, 2-row sheet with a null cell and a
short row. -/
theorem C2_read_excel_rows_witness :
    (([[some "1"], [none, some "2"]] : List (List Cell)) ≠ []) ∧
    (∀ r ∈ ([[some "1"], [none, some "2"]] : List (List Cell)),
      r.length ≤ ([some "a", some "b"] : List Cell).length) ∧
    ([some "a", some "b"] : List Cell).Nodup ∧
    (∃ data, read_excel ([some "a", some "b"] :: [[some "1"], [none, some "2"]]) =
        .ok data ∧
      data.length = ([[some "1"], [none, some "2"]] : List (List Cell)).length ∧
      (∀ i, i < data.length →
        dictKeys (data.getD i []) = [some "a", some "b"]) ∧
      (∀ i, i < data.length → ∀ j, j < ([some "a", some "b"] : List Cell).length →
        dictGet (data.getD i []) (([some "a", some "b"] : List Cell).getD j none) =
          some (((([[some "1"], [none, some "2"]] : List (List Cell)).getD i
            []).getD j none).getD ""))) :=
  ⟨by decide, by decide, by decide,
    C2_read_excel_rows [some "a", some "b"] [[some "1"], [none, some "2"]]
      (by decide) (by decide) (by decide)⟩

/-- C5 (counterexample): the written path of a later row is not the same
as if an earlier row's error had not occurred: with `foo.docx` free, a
second `foo`-named row is saved as `foo.docx` after a first row whose
save failed, but as `foo_1.docx` after the same first row succeeding. -/
theorem C5_later_row_differs :
    outcomePath ((runTrace sampleT 1 fsTemplates [rowInFooFail, rowInFooOk]).getD 1
        (.skipped .keyError)) ≠
      outcomePath ((runTrace sampleT 1 fsTemplates [rowInFooOk, rowInFooOk]).getD 1
        (.skipped .keyError)) := by
  decide

/-- C5 (amended): `run` returns exactly the output paths of the rows
whose render and save both succeed, in row-processing order; a failing
row contributes no entry, every row is still processed (no per-row
failure aborts the run), and a row failing at the render step leaves the
run state and all later rows' results entirely unchanged.  (After a
failed save, later rows see the advanced counter and the unwritten file,
so their results can differ from the success counterfactual.) -/
theorem C5_run_collects_successes (t : Templater) (c : Nat) (fs : List String)
    (rows : List RowIn) (r : RowIn) :
    (run t c fs rows).1 = (runTrace t c fs rows).filterMap outcomePath ∧
    (runTrace t c fs rows).length = rows.length ∧
    ((∃ e, render_template t fs r.row r.renderOk = .error e) →
      run t c fs (r :: rows) = run t c fs rows) := by
  refine ⟨run_eq_trace t rows c fs, runTrace_length t rows c fs, ?_⟩
  rintro ⟨e, hre⟩
  rcases hrun : run t c fs rows with ⟨ps, c2, fs2⟩
  simp [run, processRow, hre, hrun]

/-- Witness for C5 (amended): a middle row with a bad template reference
is skipped and contributes nothing. -/
theorem C5_run_collects_successes_witness :
    (∃ e, render_template sampleT fsTemplates rowInBad.row rowInBad.renderOk =
      .error e) ∧
    ((run sampleT 1 fsTemplates [rowInFooOk]).1 =
      (runTrace sampleT 1 fsTemplates [rowInFooOk]).filterMap outcomePath ∧
    (runTrace sampleT 1 fsTemplates [rowInFooOk]).length = [rowInFooOk].length ∧
    ((∃ e, render_template sampleT fsTemplates rowInBad.row rowInBad.renderOk =
        .error e) →
      run sampleT 1 fsTemplates (rowInBad :: [rowInFooOk]) =
        run sampleT 1 fsTemplates [rowInFooOk])) :=
  ⟨⟨.templateNotFound, by rfl⟩,
    C5_run_collects_successes sampleT 1 fsTemplates [rowInFooOk] rowInBad⟩

/-- C6: `render_template` raises `TemplateNotFoundError` exactly when the
row's template-selector value is empty or the resolved template path does
not exist; otherwise it proceeds to the engine's load-and-merge. -/
theorem C6_template_not_found_iff (t : Templater) (fs : List String) (row : Row)
    (renderOk : Bool) (v : String) (h : dictGet row (some t.template_column) = some v) :
    (render_template t fs row renderOk = .error .templateNotFound ↔
      (v = "" ∨ (t.template_folder ++ "/" ++ v ++ ".docx") ∉ fs)) ∧
    (¬(v = "" ∨ (t.template_folder ++ "/" ++ v ++ ".docx") ∉ fs) →
      render_template t fs row renderOk =
        if renderOk then .ok () else .error .renderError) := by
  have hred : render_template t fs row renderOk =
      if v = "" ∨ (t.template_folder ++ "/" ++ v ++ ".docx") ∉ fs
      then .error .templateNotFound
      else if renderOk then .ok () else .error .renderError := by
    unfold render_template
    rw [h]
  rw [hred]
  by_cases hc : v = "" ∨ (t.template_folder ++ "/" ++ v ++ ".docx") ∉ fs
  · simp [hc]
  · rw [if_neg hc]
    refine ⟨⟨fun he => ?_, fun hcc => absurd hcc hc⟩, fun _ => rfl⟩
    cases renderOk <;> simp_all

/-- Witness for C6: template `a` exists, so the renderer proceeds. -/
theorem C6_template_not_found_iff_witness :
    dictGet rowFoo (some sampleT.template_column) = some "a" ∧
    ((render_template sampleT fsTemplates rowFoo true = .error .templateNotFound ↔
      ("a" = "" ∨ (sampleT.template_folder ++ "/" ++ "a" ++ ".docx") ∉ fsTemplates)) ∧
    (¬("a" = "" ∨ (sampleT.template_folder ++ "/" ++ "a" ++ ".docx") ∉ fsTemplates) →
      render_template sampleT fsTemplates rowFoo true =
        if true then .ok () else .error .renderError)) :=
  ⟨by decide, C6_template_not_found_iff sampleT fsTemplates rowFoo true "a" (by decide)⟩

theorem initTemplater_missing_iff (ws : List (List Cell)) (a : Args) :
    initTemplater ws a = .error .missingColumn ↔
      ∃ d, read_excel ws = .ok d ∧
        check_template_column d a.template_column = .error .missingColumn := by
  unfold initTemplater
  cases hre : read_excel ws with
  | error e =>
    have he := read_excel_error_cases ws e hre
    subst he
    simp
  | ok d =>
    cases hck : check_template_column d a.template_column with
    | error e =>
      have he : e = .missingColumn := by
        unfold check_template_column at hck
        by_cases hc : d = [] ∨ ¬ hasKey (d.headD []) a.template_column
        · rw [if_pos hc] at hck
          exact ((Except.error.injEq _ _).mp hck).symm
        · rw [if_neg hc] at hck
          cases hck
      subst he
      simp [hck]
    | ok u =>
      cases u
      simp [hck]

/-- C7: `check_template_column` fails with `MissingColumnError` exactly
when the loaded row sequence is empty or the first row lacks the
template-selector key, and construction surfaces exactly that error after
a successful load — before any row is rendered or saved (`run` is only
reachable from a successfully constructed state). -/
theorem C7_missing_column_iff (data : List Row) (col : String) (ws : List (List Cell))
    (a : Args) :
    (check_template_column data col = .error .missingColumn ↔
      (data = [] ∨ ¬ hasKey (data.headD []) col)) ∧
    (initTemplater ws a = .error .missingColumn ↔
      ∃ d, read_excel ws = .ok d ∧
        (d = [] ∨ ¬ hasKey (d.headD []) a.template_column)) := by
  have hcheck : ∀ (dd : List Row) (cc : String),
      check_template_column dd cc = .error .missingColumn ↔
        (dd = [] ∨ ¬ hasKey (dd.headD []) cc) := by
    intro dd cc
    unfold check_template_column
    by_cases hc : dd = [] ∨ ¬ hasKey (dd.headD []) cc
    · rw [if_pos hc]
      exact iff_of_true rfl hc
    · rw [if_neg hc]
      exact iff_of_false (by simp) hc
  refine ⟨hcheck data col, ?_⟩
  rw [initTemplater_missing_iff ws a]
  exact exists_congr fun d => and_congr_right fun _ => hcheck d a.template_column

/-- C10: a row dictionary maps every key to the value at the right-most
position bearing that key in the zipped (header, cell) sequence — with
duplicate headers the last duplicate's cell wins and earlier values are
discarded — and the rows returned by `read_excel` are exactly such
dictionaries built from the padded header and data rows. -/
theorem C10_duplicate_headers_last_wins (H r : List Cell) :
    (∀ k, dictGet (rowDict H r) k =
      lastAssoc ((H.zip r).map (fun kv => (kv.1, kv.2.getD ""))) k) ∧
    (∀ ws d, read_excel ws = .ok d → ∀ i, i < d.length →
      d.getD i [] =
        rowDict ((iter_rows ws).headD []) ((iter_rows ws).tail.getD i [])) := by
  constructor
  · intro k
    exact dictGet_rowDict_lastAssoc H r k
  · intro ws d hre i hi
    unfold read_excel at hre
    by_cases hlen : ws.length ≤ 1
    · rw [if_pos hlen] at hre
      cases hre
    · rw [if_neg hlen] at hre
      have hre' : (iter_rows ws).tail.map (rowDict ((iter_rows ws).headD [])) = d := by
        simpa using hre
      subst hre'
      rw [List.length_map] at hi
      exact getD_map_lt _ _ i hi

/-- Witness for C10 on a duplicated header `a`: the right-most cell `y`
wins, and the loaded row is the corresponding dictionary. -/
theorem C10_duplicate_headers_last_wins_witness :
    dictGet (rowDict [some "a", some "a"] [some "x", some "y"]) (some "a") =
      lastAssoc ((([some "a", some "a"] : List Cell).zip [some "x", some "y"]).map
        (fun kv => (kv.1, kv.2.getD ""))) (some "a") ∧
    read_excel [[some "a", some "a"], [some "x", some "y"]] = .ok [[(some "a", "y")]] ∧
    ([[(some "a", "y")]] : List Row).getD 0 [] =
      rowDict ((iter_rows [[some "a", some "a"], [some "x", some "y"]]).headD [])
        ((iter_rows [[some "a", some "a"], [some "x", some "y"]]).tail.getD 0 []) :=
  ⟨(C10_duplicate_headers_last_wins [some "a", some "a"] [some "x", some "y"]).1
      (some "a"),
    by rfl,
    (C10_duplicate_headers_last_wins [some "a", some "a"] [some "x", some "y"]).2
      [[some "a", some "a"], [some "x", some "y"]] [[(some "a", "y")]]
      (by rfl) 0 (by decide)⟩

end ExcelWordTemplater
